import Mathlib

/-!
Verification of the GPU llama2 inference engine (run_gpu.c) against its
specification.  The definitions below are shallow embeddings of the C host
functions and of the embedded GLSL compute kernels: machine floats are
modelled as real or rational numbers, GPU buffers as functions from indices
to values, and each kernel dispatch as the functional update it performs on
the written buffer.
-/

set_option maxHeartbeats 1000000

/-! ### Configuration (struct Config, run_gpu.c lines 38-46) -/

/-- The checkpoint header: seven ints, as in struct Config. -/
structure Config where
  dim : ℕ
  hidden_dim : ℕ
  n_layers : ℕ
  n_heads : ℕ
  n_kv_heads : ℕ
  vocab_size : ℕ
  seq_len : ℕ

/-! ### Scratch-buffer sizing (malloc_run_state, lines 865-874)

The C code sets the byte length of the four scratch buffers as
  mulBuffer_len = dim * seq_len * sizeof(float);
  if (vocab_size > mulBuffer_len) mulBuffer_len = vocab_size;
Note the second branch compares an element count against a byte count and
assigns the element count as a byte count. -/

/-- Byte size of mulBuffer_1..mulBuffer_4, exactly as computed by
malloc_run_state (sizeof(float) = 4). -/
def mulBuffer_len (p : Config) : ℕ :=
  let len := p.dim * p.seq_len * 4
  if p.vocab_size > len then p.vocab_size else len

/-- The byte size the specification asks for: max(dim * seq_len, vocab_size)
float elements.  Written from the spec for comparison with mulBuffer_len. -/
def mulBuffer_len_spec (p : Config) : ℕ :=
  max (p.dim * p.seq_len) p.vocab_size * 4

/-! ### Reduction step arithmetic (rmsnorm lines 1025-1103, softmax 1105-1209)

Every reduction loop in the source computes the next inner size as
  nextStepSize = currentStepSize / 2; if (currentStepSize % 2 == 1) nextStepSize += 1;
i.e. the ceiling of half the current size. -/

/-- One host-side halving step of the iterated reductions. -/
def nextStep (n : ℕ) : ℕ :=
  n / 2 + (if n % 2 = 1 then 1 else 0)

/-- One binary-reduction pass over a row, as performed by the sum / max
kernels: element idx of the output combines elements 2*idx and 2*idx+1 of
the input, with an odd tail passed through. -/
def reducePass {α : Type} (f : α → α → α) : List α → List α
  | [] => []
  | [a] => [a]
  | a :: b :: rest => f a b :: reducePass f rest

/-- The host reduction loop: keep applying passes until one value per row
remains.  Fuel-indexed; reduceRun below supplies enough fuel. -/
def reduceRunF {α : Type} (f : α → α → α) : ℕ → List α → List α
  | 0, l => l
  | fuel + 1, l => if l.length ≤ 1 then l else reduceRunF f fuel (reducePass f l)

/-- The iterated reduction of a whole row down to its final values. -/
def reduceRun {α : Type} (f : α → α → α) (l : List α) : List α :=
  reduceRunF f l.length l

/-! ### KV cache writes (transformer, lines 1361-1366)

Per layer l the forward pass copies the dim floats of k (resp. v) to byte
offset sizeof(float) * (l * seq_len * dim + pos * dim) of key_cache
(resp. value_cache); these glCopyBufferSubData calls are the only writes to
either cache buffer in the whole forward pass. -/

/-- A device-to-device copy of len elements of src into c at offset off. -/
def writeSlab {α : Type} (off len : ℕ) (src : ℕ → α) (c : ℕ → α) : ℕ → α :=
  fun j => if off ≤ j ∧ j < off + len then src (j - off) else c j

/-- All cache writes performed by one forward pass at position pos: for each
layer l below the layer count, the dim-element slab at offset
l * (seq_len * dim) + pos * dim receives the freshly computed k (or v)
vector of that layer, given as src l.  The order of the layer iteration does not
matter for which indices are touched. -/
def kv_cache_write {α : Type} (seq_len dim pos : ℕ) (src : ℕ → ℕ → α) :
    ℕ → (ℕ → α) → ℕ → α
  | 0, c => c
  | l + 1, c =>
      writeSlab (l * (seq_len * dim) + pos * dim) dim (src l)
        (kv_cache_write seq_len dim pos src l c)

/-! ### RNG (random_u32 / random_f32, lines 1536-1546)

The 64-bit xorshift state is modelled as a natural number below 2^64; the
left shift is truncated to 64 bits as the C unsigned arithmetic does. -/

/-- rng_seed ^= rng_seed >> 12. -/
def xorshift1 (s : ℕ) : ℕ := s ^^^ (s >>> 12)

/-- rng_seed ^= rng_seed << 25 (64-bit truncating shift). -/
def xorshift2 (s : ℕ) : ℕ := s ^^^ ((s <<< 25) % 2 ^ 64)

/-- rng_seed ^= rng_seed >> 27. -/
def xorshift3 (s : ℕ) : ℕ := s ^^^ (s >>> 27)

/-- The rng_seed value after one call to random_u32. -/
def next_rng_seed (s : ℕ) : ℕ := xorshift3 (xorshift2 (xorshift1 s))

/-- The 32-bit value returned by random_u32: the updated seed times the
xorshift-star multiplier, truncated to 64 bits, shifted right by 32. -/
def random_u32 (s : ℕ) : ℕ :=
  ((next_rng_seed s * 0x2545F4914F6CDD1D) % 2 ^ 64) >>> 32

/-- random_f32: (random_u32() >> 8) / 16777216.0f, as an exact rational. -/
def random_f32 (s : ℕ) : ℚ :=
  ((random_u32 s >>> 8 : ℕ) : ℚ) / 16777216

/-! ### On-device argmax (argmax, lines 1551-1638)

The sampler state: the probabilities buffer and the four scratch buffers
mulBuffer_1..mulBuffer_4 used as value / index ping-pong pairs. -/

/-- Buffer names used by the argmax host function. -/
inductive BufId5 where
  | prob | b1 | b2 | b3 | b4
deriving DecidableEq

/-- The GPU buffer store seen by argmax. -/
abbrev Store5 := BufId5 → ℕ → ℚ

/-- Replace one named buffer of the store. -/
def setBuf5 (st : Store5) (nm : BufId5) (f : ℕ → ℚ) : Store5 :=
  fun b => if b = nm then f else st b

/-- A one-dimensional dispatch over grid (g, 1, 1): invocation idx writes
index idx of the output block. -/
def dispatch1D (g : ℕ) (f : ℕ → ℚ) (old : ℕ → ℚ) : ℕ → ℚ :=
  fun j => if j < g then f j else old j

/-- shader_rmsnorm_squares_and_sum (lines 146-165): element idx of the
output (binding 1) receives a[2 idx]^2, plus a[2 idx + 1]^2 when
2 idx + 1 < insize. -/
def squaresKern (a : ℕ → ℚ) (insize : ℕ) (idx : ℕ) : ℚ :=
  a (2 * idx) * a (2 * idx) + if 2 * idx + 1 < insize then a (2 * idx + 1) * a (2 * idx + 1) else 0

/-- The reduction loop of argmax (lines 1594-1625).  Each iteration swaps the
value and index ping-pong pairs and then dispatches
shader_rmsnorm_squares_and_sum (not shader_argmax: the source uses the wrong
program), which reads binding 0 = currentBuffer_v and writes binding 1 =
currentBuffer_i.  The insize uniform is looked up in the shader_argmax
program and hence never reaches the running program; the kernel keeps a
stale value, passed here as the parameter stale.  On exit the host maps
element 0 of nextBuffer_i. -/
def argmax_loop (stale : ℕ) : ℕ → ℕ → BufId5 → BufId5 → BufId5 → BufId5 → Store5 → Store5 × BufId5
  | 0, _, _, _, _, nbi, st => (st, nbi)
  | fuel + 1, next, cbv, cbi, nbv, nbi, st =>
      if next = 1 then (st, nbi)
      else
        let cbv2 := nbv
        let cbi2 := nbi
        let nbv2 := cbv
        let nbi2 := cbi
        let next2 := nextStep next
        let st2 := setBuf5 st cbi2 (dispatch1D next2 (squaresKern (st cbv2) stale) (st cbi2))
        argmax_loop stale fuel next2 cbv2 cbi2 nbv2 nbi2 st2

/-- The argmax host function (lines 1551-1638): initialize the index buffer
mulBuffer_2 with 0..n-1 (shader_argmax_set_index over grid (n,1,1)), run the
first reduction step (shader_rmsnorm_squares_and_sum dispatched where
shader_argmax was intended, reading the probabilities at binding 0 and
writing mulBuffer_2 at binding 1, over grid (nextStep n, 1, 1)), then the
reduction loop.  Returns the final store and the buffer the host maps. -/
def argmax_gpu (stale : ℕ) (st : Store5) (n : ℕ) : Store5 × BufId5 :=
  let st1 := setBuf5 st .b2 (dispatch1D n (fun idx => (idx : ℚ)) (st .b2))
  let st2 := setBuf5 st1 .b2
    (dispatch1D (nextStep n) (squaresKern (st1 .prob) stale) (st1 .b2))
  argmax_loop stale n (nextStep n) .b1 .b2 .b3 .b4 st2

/-- C float-to-int conversion (truncation toward zero), used when the host
reads the mapped float as an int (line 1633). -/
def c_float_to_int (q : ℚ) : ℤ :=
  if 0 ≤ q then ⌊q⌋ else -⌊-q⌋

/-- The integer the argmax host function returns: element 0 of the mapped
nextBuffer_i, converted to int. -/
def argmax_gpu_result (stale : ℕ) (st : Store5) (n : ℕ) : ℤ :=
  c_float_to_int ((argmax_gpu stale st n).1 (argmax_gpu stale st n).2 0)

/-- Reference host-side argmax scan (the comparison point named by the spec):
index of the first maximum of the list. -/
def host_argmax_aux (bi : ℕ) (bv : ℚ) (i : ℕ) : List ℚ → ℕ
  | [] => bi
  | x :: rest => if bv < x then host_argmax_aux i x (i + 1) rest
                 else host_argmax_aux bi bv (i + 1) rest

/-- Host argmax of a list of values. -/
def host_argmax : List ℚ → ℕ
  | [] => 0
  | x :: rest => host_argmax_aux 0 x 1 rest

/-- Concrete probabilities buffer for the argmax comparison: [3, 4]. -/
def argmax_probs : ℕ → ℚ := fun i => if i = 0 then 3 else if i = 1 then 4 else 0

/-- Initial store for the argmax run: the probabilities buffer holds
argmax_probs, all scratch buffers hold zeros. -/
def argmax_st0 : Store5 :=
  fun b => if b = BufId5.prob then argmax_probs else fun _ => 0

/-! ### Nucleus sampling (sample_topp, lines 1673-1717) -/

/-- The (prob, index) record sorted by sample_topp. -/
structure ProbIndex where
  prob : ℚ
  index : ℤ
deriving DecidableEq

/-- Insertion into a descending-by-probability list. -/
def insert_desc (p : ProbIndex) : List ProbIndex → List ProbIndex
  | [] => [p]
  | q :: rest => if q.prob < p.prob then p :: q :: rest else q :: insert_desc p rest

/-- Descending sort by probability; agrees with the qsort call for inputs
with pairwise distinct probabilities (the comparator leaves ties in
unspecified order). -/
def sort_desc (l : List ProbIndex) : List ProbIndex :=
  l.foldr insert_desc []

/-- Populate probindex: probindex[i] = (probabilities[i], i). -/
def build_probindex (probs : List ℚ) : List ProbIndex :=
  probs.enum.map (fun pr => ⟨pr.2, (pr.1 : ℤ)⟩)

/-- The truncation scan (lines 1692-1700): walk the sorted list accumulating
probability; on the first prefix whose mass strictly exceeds topp, stop and
return that position together with the accumulated mass.  If the whole list
is consumed, last_idx keeps its initial value 0 and the accumulated mass is
the total. -/
def topp_cut (topp : ℚ) : ℕ → ℚ → List ProbIndex → ℕ × ℚ
  | _, cum, [] => (0, cum)
  | i, cum, p :: rest =>
      let c := cum + p.prob
      if topp < c then (i, c) else topp_cut topp (i + 1) c rest

/-- The inverse-CDF loop (lines 1703-1711): scan count entries, accumulating
cdf, returning the index of the first entry with r < cdf; dflt if none (res
keeps its initial value n - 1). -/
def cdf_pick (r : ℚ) (dflt : ℤ) : ℚ → ℕ → List ProbIndex → ℤ
  | _, 0, _ => dflt
  | _, _ + 1, [] => dflt
  | cdf, k + 1, p :: rest =>
      let c := cdf + p.prob
      if r < c then p.index else cdf_pick r dflt c k rest

/-- sample_topp: the pair (value computed by the inverse-CDF loop, value the
function actually returns).  Line 1712 overwrites the loop result with
probindex[last_idx].index unconditionally, so the second component is what
the C function returns.  r is the uniform draw random_f32(). -/
def sample_topp_parts (probs : List ℚ) (topp r : ℚ) : ℤ × ℤ :=
  let sorted := sort_desc (build_probindex probs)
  let lc := topp_cut topp 0 0 sorted
  let rScaled := r * lc.2
  let loopRes := cdf_pick rScaled ((probs.length : ℤ) - 1) 0 (lc.1 + 1) sorted
  (loopRes, (sorted.getD lc.1 ⟨0, 0⟩).index)

/-- The value sample_topp returns. -/
def sample_topp (probs : List ℚ) (topp r : ℚ) : ℤ :=
  (sample_topp_parts probs topp r).2

/-! ### Attention-score dispatch (shader_transformer_get_query_vector,
lines 488-523, dispatched at lines 1370-1393)

The kernel invocation with global id (h, t) computes the dot product of the
query head h with the cached key at position t and writes
att[t + h * seq_len].  The transformer dispatches it over grid
(n_heads, head_size, 1) -- line 1391 -- so t ranges over [0, head_size),
not [0, pos]. -/

/-- The per-invocation score of shader_transformer_get_query_vector: the
head-h query dotted with the cached key of position t in the given layer,
divided by sqrt(head_size). -/
noncomputable def attention_score (headSize seqLen dim layer : ℕ)
    (q kcache : ℕ → ℝ) (h t : ℕ) : ℝ :=
  (∑ i ∈ Finset.range headSize,
      q (i + h * headSize) * kcache (i + (layer * (seqLen * dim) + t * dim + h * headSize)))
    / Real.sqrt headSize

/-- The att buffer after the dispatch over grid (gridX, gridY, 1) =
(n_heads, head_size, 1): invocation (h, t) writes index t + h * seq_len.
The index decomposition is faithful whenever head_size <= seq_len (then
t + h * seq_len with t < head_size determines h = j / seq_len and
t = j % seq_len uniquely). -/
noncomputable def get_query_vector_dispatch (gridX gridY headSize seqLen dim layer : ℕ)
    (q kcache att : ℕ → ℝ) : ℕ → ℝ :=
  fun j =>
    if j / seqLen < gridX ∧ j % seqLen < gridY then
      attention_score headSize seqLen dim layer q kcache (j / seqLen) (j % seqLen)
    else att j

/-! ### SwiGLU elementwise kernel (shader_transformer_silu_and_mulW3,
lines 468-486, dispatched at lines 1439-1446)

The shader declares BOTH interface blocks at binding 0 ("layout(binding = 0)
buffer Input0 ... hb" and "layout(binding = 0) readonly buffer Input1 ...
hb2"), while the host binds hb at 0 and hb2 at 1; hence both reads hit the
buffer at binding 0, i.e. hb, and the buffer at binding 1 is never accessed.
The kernel body computes v = hb[idx]; v = v * (1/(1 + exp(v)));
v = v * hb2[idx]; hb[idx] = v -- note exp(v), not exp(-v). -/

/-- The pair (hb, hb2) after the silu_and_mulW3 dispatch over grid
(hiddenDim, 1, 1). -/
noncomputable def silu_and_mulW3_dispatch (hb hb2 : ℕ → ℝ) (hiddenDim : ℕ) :
    (ℕ → ℝ) × (ℕ → ℝ) :=
  (fun i => if i < hiddenDim then hb i * (1 / (1 + Real.exp (hb i))) * hb i else hb i,
   hb2)

/-- The value the specification claims for hb[i]:
(h * sigma(h)) * hb2[i] with sigma(x) = 1/(1 + exp(-x)).  Written from the
spec for comparison with the dispatch. -/
noncomputable def silu_and_mulW3_spec (hb hb2 : ℕ → ℝ) (i : ℕ) : ℝ :=
  hb i * (1 / (1 + Real.exp (-hb i))) * hb2 i

/-! ### RoPE dispatch (shader_positionalEncoding, lines 427-466, dispatched
at lines 1334-1359)

The kernel reads freq_cis_real at binding 0, freq_cis_imag at binding 1, and
rotates the buffers bound at bindings 2 (its q block) and 3 (its k block).
The host, however, issues
  glBindBufferBase(..., 2, s->q); glBindBufferBase(..., 2, s->k);
(lines 1338-1339): slot 2 is bound twice -- the k buffer wins -- and slot 3
is never bound here, so it keeps whatever the previous dispatch left there.
Inside the transformer layer body, the last binding of slot 3 before this
dispatch is the out-of-place output buffer xb of the attention rmsnorm
(line 1091). -/

/-- Buffer names involved in the RoPE dispatch. -/
inductive RopeBuf where
  | freqReal | freqImag | q | k | xb
deriving DecidableEq

/-- The binding table: which buffer is bound at each slot. -/
def bindBufferBase (b : ℕ → RopeBuf) (slot : ℕ) (nm : RopeBuf) : ℕ → RopeBuf :=
  fun s => if s = slot then nm else b s

/-- Replace one named buffer of a RoPE-store. -/
noncomputable def setRopeBuf (st : RopeBuf → ℕ → ℝ) (nm : RopeBuf) (f : ℕ → ℝ) :
    RopeBuf → ℕ → ℝ :=
  fun b => if b = nm then f else st b

/-- The rotation shader_positionalEncoding applies to one of its q/k blocks:
invocation idx (idx < halfDim, the grid is (dim/2, 1, 1)) reads the pair
(buf[2 idx], buf[2 idx + 1]) and the frequencies at
freq[delta + (2 idx mod head_size) / 2] and writes the rotated pair. -/
noncomputable def ropeApply (fr fi : ℕ → ℝ) (delta headSize halfDim : ℕ)
    (buf : ℕ → ℝ) : ℕ → ℝ :=
  fun i =>
    if i / 2 < halfDim then
      let base := 2 * (i / 2)
      let fcr := fr (delta + base % headSize / 2)
      let fci := fi (delta + base % headSize / 2)
      if i % 2 = 0 then buf base * fcr - buf (base + 1) * fci
      else buf base * fci + buf (base + 1) * fcr
    else buf i

/-- The effect of the RoPE dispatch given the binding table at dispatch
time: frequencies are read from the buffers at slots 0 and 1, and the
buffers at slots 2 and 3 are rotated in place (they are distinct in the
trace modelled here). -/
noncomputable def rope_dispatch (bnd : ℕ → RopeBuf) (st : RopeBuf → ℕ → ℝ)
    (delta headSize halfDim : ℕ) : RopeBuf → ℕ → ℝ :=
  let fr := st (bnd 0)
  let fi := st (bnd 1)
  let st1 := setRopeBuf st (bnd 2) (ropeApply fr fi delta headSize halfDim (st (bnd 2)))
  setRopeBuf st1 (bnd 3) (ropeApply fr fi delta headSize halfDim (st (bnd 3)))

/-- The binding table after the four glBindBufferBase calls of the
RoPE section of the transformer (lines 1336-1339), applied to the incoming
table b. -/
def transformer_rope_bindings (b : ℕ → RopeBuf) : ℕ → RopeBuf :=
  bindBufferBase
    (bindBufferBase (bindBufferBase (bindBufferBase b 0 .freqReal) 1 .freqImag) 2 .q)
    2 .k

/-- Concrete store for the RoPE counterexample: fcr identically 0, fci
identically 1; q and xb are the unit vector e0, k is zero. -/
noncomputable def rope_st0 : RopeBuf → ℕ → ℝ
  | .freqReal => fun _ => 0
  | .freqImag => fun _ => 1
  | .q => fun i => if i = 0 then 1 else 0
  | .k => fun _ => 0
  | .xb => fun i => if i = 0 then 1 else 0

/-! ### The softmax composite (softmax, lines 1105-1209) and the logits path
(main, lines 1893-1911)

softmax(prog, state, x, size_x, size_y) runs three phases over the store
{x, mulBuffer_1, mulBuffer_2, mulBuffer_3}: a max reduction ping-ponging
between mulBuffer_1 and mulBuffer_2, an exp-and-sum pass from x into
mulBuffer_3 followed by a sum reduction, and a final normalize pass writing
x in place.  Every dispatch uses grid (nextStepSize, size_y, 1) (the
normalize uses (size_x, size_y, 1)): with size_y = 0 there are no
invocations at all.  In main, the temperature path calls
softmax(..., state.logits, config.vocab_size, 0) -- line 1903 -- with outer
count 0. -/

/-- Buffer names of the softmax composite. -/
inductive St4Buf where
  | logits | m1 | m2 | m3
deriving DecidableEq

/-- The buffer store seen by softmax. -/
abbrev St4 := St4Buf → ℕ → ℝ

/-- Replace one named buffer of the store. -/
noncomputable def setBuf4 (st : St4) (nm : St4Buf) (f : ℕ → ℝ) : St4 :=
  fun b => if b = nm then f else st b

/-- A dispatch over grid (shape0, gy, 1) whose invocation (idx, idy) writes
output index idx + shape0 * idy: output index j is written by invocation
(j mod shape0, j / shape0) when that invocation exists. -/
noncomputable def dispatch2D (shape0 gy : ℕ) (f : ℕ → ℕ → ℝ) (old : ℕ → ℝ) :
    ℕ → ℝ :=
  fun j =>
    if 0 < shape0 ∧ j / shape0 < gy ∧ j % shape0 < shape0 then
      f (j % shape0) (j / shape0)
    else old j

/-- shader_max (lines 244-266): the written value at invocation (idx, idy). -/
noncomputable def maxKern (a : ℕ → ℝ) (insize idx idy : ℕ) : ℝ :=
  if 2 * idx + 1 < insize then
    max (a (insize * idy + 2 * idx)) (a (insize * idy + 2 * idx + 1))
  else a (insize * idy + 2 * idx)

/-- shader_sum (lines 221-242): the written value at invocation (idx, idy). -/
noncomputable def sumKern (a : ℕ → ℝ) (insize idx idy : ℕ) : ℝ :=
  a (insize * idy + 2 * idx) +
    if 2 * idx + 1 < insize then a (insize * idy + 2 * idx + 1) else 0

/-- shader_softmax_exp_and_sum (lines 167-195): the written value at
invocation (idx, idy); maxVal_arr.data[0] is always element 0, and the odd
guard compares the absolute input index i0 + 1 against insize, exactly as
the shader does. -/
noncomputable def expSumKern (a m : ℕ → ℝ) (insize idx idy : ℕ) : ℝ :=
  Real.exp (a (2 * idx + insize * idy) - m 0) +
    if 2 * idx + insize * idy + 1 < insize then
      Real.exp (a (2 * idx + insize * idy + 1) - m 0)
    else 0

/-- The max-reduction do-while of softmax (lines 1115-1141): each iteration
swaps the ping-pong pair, halves the step, and dispatches shader_max reading
the new current buffer and writing the new next buffer over grid
(nextStepSize, size_y, 1); it exits once the dispatch just issued produced a
single element.  Returns the store and the final (currentBuffer,
nextBuffer) pair. -/
noncomputable def softmax_max_loop (gy : ℕ) :
    ℕ → ℕ → St4Buf → St4Buf → St4 → St4 × St4Buf × St4Buf
  | 0, _, cb, nb, st => (st, cb, nb)
  | fuel + 1, next, cb, nb, st =>
      let cb2 := nb
      let nb2 := cb
      let cur2 := next
      let next2 := nextStep cur2
      let st2 := setBuf4 st nb2 (dispatch2D next2 gy (maxKern (st cb2) cur2) (st nb2))
      if next2 = 1 then (st2, cb2, nb2)
      else softmax_max_loop gy fuel next2 cb2 nb2 st2

/-- The sum-reduction while of softmax (lines 1169-1194): entry-checked;
otherwise the same swap / halve / dispatch step with shader_sum.  Returns
the store and the buffer holding the row sums. -/
noncomputable def softmax_sum_loop (gy : ℕ) :
    ℕ → ℕ → St4Buf → St4Buf → St4 → St4 × St4Buf
  | 0, _, _, nb, st => (st, nb)
  | fuel + 1, next, cb, nb, st =>
      if next = 1 then (st, nb)
      else
        let cb2 := nb
        let nb2 := cb
        let cur2 := next
        let next2 := nextStep cur2
        let st2 := setBuf4 st nb2 (dispatch2D next2 gy (sumKern (st cb2) cur2) (st nb2))
        softmax_sum_loop gy fuel next2 cb2 nb2 st2

/-- The softmax host function (lines 1105-1209).  Phase 1: the max
reduction starting from (currentBuffer, nextBuffer) = (mulBuffer_1,
mulBuffer_2) with nextStepSize = size_x.  Phase 2: the exp-and-sum dispatch
reading x (binding 0) and the max result (binding 1) and writing mulBuffer_3
(binding 2) over grid (nextStep size_x, size_y, 1), then the sum loop with
nextBuffer reassigned to mulBuffer_3 while currentBuffer keeps its phase-1
value.  Phase 3: the normalize dispatch over grid (size_x, size_y, 1)
dividing x element idx + size_x * idy by the row-sum element 0. -/
noncomputable def softmax_host (st : St4) (sizeX gy : ℕ) : St4 :=
  let A := softmax_max_loop gy sizeX sizeX St4Buf.m1 St4Buf.m2 st
  let st1 := A.1
  let curB := A.2.1
  let resMax := A.2.2
  let next2 := nextStep sizeX
  let st2 := setBuf4 st1 St4Buf.m3
    (dispatch2D next2 gy (expSumKern (st1 St4Buf.logits) (st1 resMax) sizeX)
      (st1 St4Buf.m3))
  let B := softmax_sum_loop gy sizeX next2 curB St4Buf.m3 st2
  let st3 := B.1
  let resSum := B.2
  setBuf4 st3 St4Buf.logits
    (dispatch2D sizeX gy
      (fun idx idy => st3 St4Buf.logits (idx + sizeX * idy) / st3 resSum 0)
      (st3 St4Buf.logits))

/-- shader_temperature (lines 606-619) dispatched over grid
(vocab_size, 1, 1) at lines 1894-1900: logits[idx] /= temperature. -/
noncomputable def temperature_dispatch (logits : ℕ → ℝ) (T : ℝ) (vocab : ℕ) :
    ℕ → ℝ :=
  fun j => if j < vocab then logits j / T else logits j

/-- The logits buffer path of the temperature branch of main (lines 1893-1903):
divide the logits by T, then softmax(logits, vocab_size, 0) -- with the
literal outer count 0 the source passes. -/
noncomputable def logits_after_temperature_softmax (st : St4) (T : ℝ) (vocab : ℕ) :
    St4 :=
  softmax_host (setBuf4 st St4Buf.logits
    (temperature_dispatch (st St4Buf.logits) T vocab)) vocab 0

/-- The all-zero store. -/
noncomputable def st4_zero : St4 := fun _ _ => 0

/-! # Theorems -/

/-! ### Helper lemmas for the reduction shape -/

theorem nextStep_lt (n : ℕ) (h : 2 ≤ n) : nextStep n < n := by
  unfold nextStep
  rcases Nat.even_or_odd n with he | ho
  · have : n % 2 = 0 := Nat.even_iff.mp he
    simp [this]
    omega
  · have : n % 2 = 1 := Nat.odd_iff.mp ho
    simp [this]
    omega

theorem nextStep_pos (n : ℕ) (h : 1 ≤ n) : 1 ≤ nextStep n := by
  unfold nextStep
  rcases Nat.even_or_odd n with he | ho
  · have : n % 2 = 0 := Nat.even_iff.mp he
    simp [this]
    omega
  · have : n % 2 = 1 := Nat.odd_iff.mp ho
    simp [this]

theorem reducePass_length {α : Type} (f : α → α → α) :
    ∀ l : List α, (reducePass f l).length = nextStep l.length
  | [] => by simp [reducePass, nextStep]
  | [a] => by simp [reducePass, nextStep]
  | a :: b :: rest => by
      have ih := reducePass_length f rest
      simp only [reducePass, List.length_cons, ih]
      unfold nextStep
      rcases Nat.even_or_odd rest.length with he | ho
      · have h2 : rest.length % 2 = 0 := Nat.even_iff.mp he
        have h3 : (rest.length + 1 + 1) % 2 = 0 := by omega
        simp [h2, h3]
        omega
      · have h2 : rest.length % 2 = 1 := Nat.odd_iff.mp ho
        have h3 : (rest.length + 1 + 1) % 2 = 1 := by omega
        simp [h2, h3]
        omega

theorem reduceRunF_length {α : Type} (f : α → α → α) :
    ∀ (fuel : ℕ) (l : List α), l.length ≤ fuel → 1 ≤ l.length →
      (reduceRunF f fuel l).length = 1
  | 0, l, hf, h1 => by omega
  | fuel + 1, l, hf, h1 => by
      rw [reduceRunF]
      by_cases hle : l.length ≤ 1
      · simp [hle]
        omega
      · simp only [hle, if_false]
        have hlen := reducePass_length f l
        exact reduceRunF_length f fuel (reducePass f l)
          (by rw [hlen]; have := nextStep_lt l.length (by omega); omega)
          (by rw [hlen]; exact nextStep_pos _ (by omega))

theorem nextStep_iter_reaches_one :
    ∀ n : ℕ, 1 ≤ n → ∃ k, nextStep^[k] n = 1 := by
  intro n
  induction n using Nat.strong_induction_on with
  | _ n ih =>
    intro h1
    by_cases h : n = 1
    · exact ⟨0, by simp [h]⟩
    · obtain ⟨k, hk⟩ := ih (nextStep n) (nextStep_lt n (by omega))
        (nextStep_pos n (by omega))
      exact ⟨k + 1, by rw [Function.iterate_succ_apply]; exact hk⟩

/-- Claim C8: for every inner reduction length n >= 1, the iterated
reduction loops follow the step-size sequence n, ceil(n/2), ceil(ceil(n/2)/2),
..., this sequence reaches 1 after finitely many passes (so each loop
terminates), and exactly one output value per outer row remains. -/
theorem reduction_shape (n : ℕ) (h : 1 ≤ n) :
    (∃ k, nextStep^[k] n = 1) ∧
    ∀ (f : ℚ → ℚ → ℚ) (row : List ℚ), row.length = n →
      (reduceRun f row).length = 1 := by
  refine ⟨nextStep_iter_reaches_one n h, ?_⟩
  intro f row hrow
  exact reduceRunF_length f row.length row le_rfl (by omega)

/-- Witness for C8 at n = 5. -/
theorem reduction_shape_witness :
    1 ≤ 5 ∧
    ((∃ k, nextStep^[k] 5 = 1) ∧
     ∀ (f : ℚ → ℚ → ℚ) (row : List ℚ), row.length = 5 →
       (reduceRun f row).length = 1) :=
  ⟨by norm_num, reduction_shape 5 (by norm_num)⟩

/-! ### Scratch buffer sizing -/

/-- Claim C9 fails on the code: with dim = 1, seq_len = 1, vocab_size = 2 the
code allocates 4 bytes per scratch buffer (room for one float), while the
claimed size max(dim * seq_len, vocab_size) * sizeof(float) is 8 bytes.  The
branch in malloc_run_state compares the element count vocab_size against a
byte count and then assigns it as a byte count. -/
theorem mulBuffer_len_mismatch :
    mulBuffer_len ⟨1, 1, 1, 1, 1, 2, 1⟩ = 4 ∧
    mulBuffer_len_spec ⟨1, 1, 1, 1, 1, 2, 1⟩ = 8 ∧
    mulBuffer_len ⟨1, 1, 1, 1, 1, 2, 1⟩ ≠ mulBuffer_len_spec ⟨1, 1, 1, 1, 1, 2, 1⟩ := by
  refine ⟨by decide, by decide, by decide⟩

/-! ### RNG invariants -/

theorem xorshift1_ne_zero (s : ℕ) (h : s ≠ 0) : xorshift1 s ≠ 0 := by
  intro hz
  have heq : s = s >>> 12 := Nat.xor_eq_zero.mp hz
  rw [Nat.shiftRight_eq_div_pow] at heq
  have : s / 2 ^ 12 < s := Nat.div_lt_self (by omega) (by norm_num)
  omega

theorem xorshift3_ne_zero (s : ℕ) (h : s ≠ 0) : xorshift3 s ≠ 0 := by
  intro hz
  have heq : s = s >>> 27 := Nat.xor_eq_zero.mp hz
  rw [Nat.shiftRight_eq_div_pow] at heq
  have : s / 2 ^ 27 < s := Nat.div_lt_self (by omega) (by norm_num)
  omega

theorem xorshift2_ne_zero (s : ℕ) (hlt : s < 2 ^ 64) (h : s ≠ 0) :
    xorshift2 s ≠ 0 := by
  intro hz
  have heq : s = (s <<< 25) % 2 ^ 64 := Nat.xor_eq_zero.mp hz
  apply h
  apply Nat.eq_of_testBit_eq
  intro i
  rw [Nat.zero_testBit]
  induction i using Nat.strong_induction_on with
  | _ i ih =>
    by_cases hi : i < 64
    · have hbit : s.testBit i = ((s <<< 25) % 2 ^ 64).testBit i := by rw [← heq]
      rw [Nat.testBit_mod_two_pow, Nat.testBit_shiftLeft] at hbit
      by_cases h25 : 25 ≤ i
      · have : s.testBit (i - 25) = false := ih (i - 25) (by omega)
        simp [hi, h25, this] at hbit
        exact hbit
      · simp [hi, h25] at hbit
        exact hbit
    · exact Nat.testBit_lt_two_pow (lt_of_lt_of_le hlt (Nat.pow_le_pow_right (by norm_num) (by omega)))

theorem xorshift1_lt (s : ℕ) (hlt : s < 2 ^ 64) : xorshift1 s < 2 ^ 64 := by
  apply Nat.xor_lt_two_pow hlt
  calc s >>> 12 ≤ s := by rw [Nat.shiftRight_eq_div_pow]; exact Nat.div_le_self _ _
    _ < 2 ^ 64 := hlt

theorem xorshift2_lt (s : ℕ) (hlt : s < 2 ^ 64) : xorshift2 s < 2 ^ 64 := by
  exact Nat.xor_lt_two_pow hlt (Nat.mod_lt _ (by norm_num))

theorem xorshift3_lt (s : ℕ) (hlt : s < 2 ^ 64) : xorshift3 s < 2 ^ 64 := by
  apply Nat.xor_lt_two_pow hlt
  calc s >>> 27 ≤ s := by rw [Nat.shiftRight_eq_div_pow]; exact Nat.div_le_self _ _
    _ < 2 ^ 64 := hlt

theorem next_rng_seed_ne_zero (s : ℕ) (hlt : s < 2 ^ 64) (h : s ≠ 0) :
    next_rng_seed s ≠ 0 :=
  xorshift3_ne_zero _ (xorshift2_ne_zero _ (xorshift1_lt s hlt) (xorshift1_ne_zero s h))

theorem next_rng_seed_lt (s : ℕ) (hlt : s < 2 ^ 64) : next_rng_seed s < 2 ^ 64 :=
  xorshift3_lt _ (xorshift2_lt _ (xorshift1_lt s hlt))

theorem random_u32_lt (s : ℕ) : random_u32 s < 2 ^ 32 := by
  unfold random_u32
  rw [Nat.shiftRight_eq_div_pow]
  have h1 : (next_rng_seed s * 0x2545F4914F6CDD1D) % 2 ^ 64 < 2 ^ 64 :=
    Nat.mod_lt _ (by norm_num)
  have : (2 : ℕ) ^ 64 = 2 ^ 32 * 2 ^ 32 := by norm_num
  exact Nat.div_lt_of_lt_mul (by omega)

/-- Claim C10: if rng_seed is nonzero (and a 64-bit value) before a call to
random_u32, it is nonzero after the call; the generator never reaches the
all-zero fixed point from a nonzero seed; and random_f32 always returns a
value in [0, 1). -/
theorem rng_state_invariant (s : ℕ) (hlt : s < 2 ^ 64) (hnz : s ≠ 0) :
    next_rng_seed s ≠ 0 ∧ next_rng_seed s < 2 ^ 64 ∧
    (∀ k, next_rng_seed^[k] s ≠ 0) ∧
    0 ≤ random_f32 s ∧ random_f32 s < 1 := by
  have hiter : ∀ k, next_rng_seed^[k] s ≠ 0 ∧ next_rng_seed^[k] s < 2 ^ 64 := by
    intro k
    induction k with
    | zero => exact ⟨hnz, hlt⟩
    | succ k ih =>
        rw [Function.iterate_succ_apply']
        exact ⟨next_rng_seed_ne_zero _ ih.2 ih.1, next_rng_seed_lt _ ih.2⟩
  refine ⟨next_rng_seed_ne_zero s hlt hnz, next_rng_seed_lt s hlt,
    fun k => (hiter k).1, ?_, ?_⟩
  · unfold random_f32
    positivity
  · unfold random_f32
    rw [div_lt_one (by norm_num)]
    have hu := random_u32_lt s
    have h8 : random_u32 s >>> 8 < 2 ^ 24 := by
      rw [Nat.shiftRight_eq_div_pow]
      have : (2 : ℕ) ^ 32 = 2 ^ 24 * 2 ^ 8 := by norm_num
      exact Nat.div_lt_of_lt_mul (by omega)
    calc ((random_u32 s >>> 8 : ℕ) : ℚ) < ((2 ^ 24 : ℕ) : ℚ) := by exact_mod_cast h8
      _ = 16777216 := by norm_num

/-! ### KV cache monotonicity -/

theorem slab_miss (seq_len dim l t j p' l' : ℕ)
    (htp : t < p') (hps : p' < seq_len) (hj : j < dim) :
    ¬ (l' * (seq_len * dim) + p' * dim ≤ l * (seq_len * dim) + t * dim + j ∧
       l * (seq_len * dim) + t * dim + j < l' * (seq_len * dim) + p' * dim + dim) := by
  rintro ⟨h1, h2⟩
  rcases lt_trichotomy l l' with hl | hl | hl
  · have e1 : (l + 1) * (seq_len * dim) = l * (seq_len * dim) + seq_len * dim :=
      Nat.succ_mul l (seq_len * dim)
    have e2 : (l + 1) * (seq_len * dim) ≤ l' * (seq_len * dim) :=
      Nat.mul_le_mul_right _ (by omega)
    have e3 : (t + 1) * dim = t * dim + dim := Nat.succ_mul t dim
    have e4 : (t + 1) * dim ≤ seq_len * dim := Nat.mul_le_mul_right _ (by omega)
    omega
  · subst hl
    have e3 : (t + 1) * dim = t * dim + dim := Nat.succ_mul t dim
    have e4 : (t + 1) * dim ≤ p' * dim := Nat.mul_le_mul_right _ (by omega)
    omega
  · have e1 : (l' + 1) * (seq_len * dim) = l' * (seq_len * dim) + seq_len * dim :=
      Nat.succ_mul l' (seq_len * dim)
    have e2 : (l' + 1) * (seq_len * dim) ≤ l * (seq_len * dim) :=
      Nat.mul_le_mul_right _ (by omega)
    have e3 : (p' + 1) * dim = p' * dim + dim := Nat.succ_mul p' dim
    have e4 : (p' + 1) * dim ≤ seq_len * dim := Nat.mul_le_mul_right _ (by omega)
    omega

theorem kv_cache_write_miss {α : Type} (seq_len dim p' t l j : ℕ)
    (src : ℕ → ℕ → α) (cache : ℕ → α)
    (htp : t < p') (hps : p' < seq_len) (hj : j < dim) :
    ∀ n : ℕ, kv_cache_write seq_len dim p' src n cache (l * (seq_len * dim) + t * dim + j)
      = cache (l * (seq_len * dim) + t * dim + j) := by
  intro n
  induction n with
  | zero => rfl
  | succ n ih =>
      show writeSlab (n * (seq_len * dim) + p' * dim) dim (src n)
          (kv_cache_write seq_len dim p' src n cache)
          (l * (seq_len * dim) + t * dim + j) = _
      rw [writeSlab]
      rw [if_neg]
      · exact ih
      · have := slab_miss seq_len dim l t j p' n htp hps hj
        omega

/-- Claim C7: the forward pass at a later position p' writes only the
dim-float slab at offset l * seq_len * dim + p' * dim of each cache, so every
key_cache / value_cache entry belonging to a layer l and an earlier position
t <= p stays bitwise unchanged. -/
theorem kv_cache_monotonicity {α : Type} (n_layers seq_len dim p p' l t j : ℕ)
    (src : ℕ → ℕ → α) (cache : ℕ → α)
    (_hl : l < n_layers) (htp : t ≤ p) (hpp : p < p') (hps : p' < seq_len)
    (hj : j < dim) :
    kv_cache_write seq_len dim p' src n_layers cache
      (l * (seq_len * dim) + t * dim + j)
      = cache (l * (seq_len * dim) + t * dim + j) :=
  kv_cache_write_miss seq_len dim p' t l j src cache (by omega) hps hj n_layers

/-- Witness for C7: one layer, seq_len 2, dim 1; the write at position 1
leaves the position-0 entry (value 7) untouched. -/
theorem kv_cache_monotonicity_witness :
    ((0 : ℕ) < 1 ∧ (0 : ℕ) ≤ 0 ∧ (0 : ℕ) < 1 ∧ (1 : ℕ) < 2 ∧ (0 : ℕ) < 1) ∧
    kv_cache_write 2 1 1 (fun _ _ => (99 : ℤ)) 1 (fun i => (i : ℤ) + 7)
      (0 * (2 * 1) + 0 * 1 + 0) = (fun i => (i : ℤ) + 7) (0 * (2 * 1) + 0 * 1 + 0) ∧
    (fun i => (i : ℤ) + 7) (0 * (2 * 1) + 0 * 1 + 0) = 7 :=
  ⟨⟨by norm_num, by norm_num, by norm_num, by norm_num, by norm_num⟩,
   kv_cache_monotonicity 1 2 1 0 1 0 0 0 (fun _ _ => (99 : ℤ)) (fun i => (i : ℤ) + 7)
     (by norm_num) (by norm_num) (by norm_num) (by norm_num) (by norm_num),
   by norm_num⟩

/-! ### Attention-score dispatch (C1) -/

/-- Claim C1 fails on the code: with n_heads = 1, head_size = 1 (dim = 1),
seq_len = 4, layer 0, q identically 1, key_cache identically 1 and att
initially 0, the dispatch grid (n_heads, head_size, 1) = (1, 1, 1) runs no
invocation with t = 1, so after the dispatch att[0 * seq_len + 1] still
holds 0, although for pos = 1 the claim requires the score
(sum_i q_i * k_i) / sqrt(head_size) = 1 for every t <= pos. -/
theorem get_query_vector_missing_score :
    get_query_vector_dispatch 1 1 1 4 1 0 (fun _ => 1) (fun _ => 1) (fun _ => 0) 1 = 0 ∧
    attention_score 1 4 1 0 (fun _ => 1) (fun _ => 1) 0 1 = 1 ∧
    (0 : ℝ) ≠ 1 := by
  refine ⟨?_, ?_, by norm_num⟩
  · norm_num [get_query_vector_dispatch]
  · norm_num [attention_score, Finset.sum_range_one, Real.sqrt_one]

/-! ### SwiGLU elementwise kernel (C3) -/

/-- Claim C3 fails on the code: with hidden_dim = 1, hb = [1] and hb2 = [2],
the dispatch stores 1 * (1/(1 + e^1)) * 1 = 1/(1+e) in hb[0] (the kernel
uses exp(v) instead of exp(-v), and its hb2 block is declared at binding 0,
so the multiplier it reads is hb[0], not hb2[0]), while the claim requires
(1 * sigma(1)) * 2 = 2/(1 + e^-1) > 1.  The two values differ. -/
theorem silu_and_mulW3_wrong :
    (silu_and_mulW3_dispatch (fun _ => 1) (fun _ => 2) 1).1 0 ≠
      silu_and_mulW3_spec (fun _ => 1) (fun _ => 2) 0 := by
  have hneg : Real.exp (-1) < 1 := Real.exp_lt_one_iff.mpr (by norm_num)
  have hpos : (0 : ℝ) < Real.exp (-1) := Real.exp_pos _
  have he : (2 : ℝ) < Real.exp 1 := by
    have := Real.exp_one_gt_d9
    linarith
  apply ne_of_lt
  show (if (0 : ℕ) < 1 then (1 : ℝ) * (1 / (1 + Real.exp 1)) * 1 else 1)
      < 1 * (1 / (1 + Real.exp (-1))) * 2
  have h01 : (0 : ℕ) < 1 := by norm_num
  rw [if_pos h01, one_mul, mul_one, one_mul]
  have h3 : (3 : ℝ) < 1 + Real.exp 1 := by linarith
  have hd2 : (0 : ℝ) < 1 + Real.exp (-1) := by linarith
  have hA : 1 / (1 + Real.exp 1) < 1 / 3 := by
    apply one_div_lt_one_div_of_lt <;> linarith
  have hB : (1 : ℝ) < 1 / (1 + Real.exp (-1)) * 2 := by
    rw [div_mul_eq_mul_div, one_mul, lt_div_iff₀ hd2]
    linarith
  linarith

/-! ### RoPE dispatch (C2) -/

/-- Claim C2 fails on the code: with dim = 2 (one pair), head_size = 2,
pos = 0, fcr = 0 and fci = 1, starting from q = (1, 0), the dispatch issued
by the transformer leaves the q buffer unchanged (its binding was
overwritten by k), although the claim requires q[0] to become
q0 * fcr - q1 * fci = 0; moreover the stale slot-3 buffer xb = (1, 0) is
rotated to (0, 1), although the claim says no buffer other than q and k is
modified. -/
theorem rope_dispatch_wrong :
    rope_dispatch (transformer_rope_bindings (fun _ => RopeBuf.xb)) rope_st0 0 2 1
        RopeBuf.q 0 = 1 ∧
    ropeApply (rope_st0 RopeBuf.freqReal) (rope_st0 RopeBuf.freqImag) 0 2 1
        (rope_st0 RopeBuf.q) 0 = 0 ∧
    rope_dispatch (transformer_rope_bindings (fun _ => RopeBuf.xb)) rope_st0 0 2 1
        RopeBuf.xb 0 = 0 ∧
    rope_st0 RopeBuf.xb 0 = 1 ∧
    (1 : ℝ) ≠ 0 := by
  refine ⟨?_, ?_, ?_, ?_, by norm_num⟩ <;>
    norm_num [rope_dispatch, setRopeBuf, transformer_rope_bindings,
      bindBufferBase, ropeApply, rope_st0,
      (by decide : RopeBuf.q ≠ RopeBuf.xb), (by decide : RopeBuf.q ≠ RopeBuf.k),
      (by decide : RopeBuf.xb ≠ RopeBuf.k)]

/-! ### The logits softmax path (C4) -/

theorem dispatch2D_gy_zero (shape0 : ℕ) (f : ℕ → ℕ → ℝ) (old : ℕ → ℝ) :
    dispatch2D shape0 0 f old = old := by
  funext j
  simp [dispatch2D]

theorem setBuf4_self (st : St4) (b : St4Buf) : setBuf4 st b (st b) = st := by
  funext b' j
  simp only [setBuf4]
  split <;> simp_all

theorem softmax_max_loop_store (fuel : ℕ) :
    ∀ (next : ℕ) (cb nb : St4Buf) (st : St4),
      (softmax_max_loop 0 fuel next cb nb st).1 = st := by
  induction fuel with
  | zero => intro next cb nb st; rfl
  | succ fuel ih =>
      intro next cb nb st
      rw [softmax_max_loop]
      simp only [dispatch2D_gy_zero, setBuf4_self]
      split
      · rfl
      · exact ih _ _ _ _

theorem softmax_sum_loop_store (fuel : ℕ) :
    ∀ (next : ℕ) (cb nb : St4Buf) (st : St4),
      (softmax_sum_loop 0 fuel next cb nb st).1 = st := by
  induction fuel with
  | zero => intro next cb nb st; rfl
  | succ fuel ih =>
      intro next cb nb st
      rw [softmax_sum_loop]
      split
      · rfl
      · simp only [dispatch2D_gy_zero, setBuf4_self]
        exact ih _ _ _ _

theorem softmax_host_gy_zero (st : St4) (sizeX : ℕ) :
    softmax_host st sizeX 0 = st := by
  unfold softmax_host
  simp only [softmax_max_loop_store, softmax_sum_loop_store,
    dispatch2D_gy_zero, setBuf4_self]

/-- Claim C4 fails on the code: main calls softmax(logits, vocab_size, 0)
with outer count 0, so every dispatch of the composite has an empty grid and
the logits buffer is left exactly as the temperature scale produced it.
With vocab_size = 2, temperature T = 2 and zero logits, the buffer after the
temperature-scale dispatch and the softmax call holds (0, 0): the entries
sum to 0, not to 1 within 1e-5, so the buffer is not a probability
distribution. -/
theorem logits_softmax_not_distribution :
    (∑ j ∈ Finset.range 2,
        logits_after_temperature_softmax st4_zero 2 2 St4Buf.logits j) = 0 ∧
    ¬ |(∑ j ∈ Finset.range 2,
          logits_after_temperature_softmax st4_zero 2 2 St4Buf.logits j) - 1|
        ≤ 1e-5 := by
  have h2 : ∀ j, logits_after_temperature_softmax st4_zero 2 2 St4Buf.logits j = 0 := by
    intro j
    rw [logits_after_temperature_softmax, softmax_host_gy_zero]
    simp [setBuf4, temperature_dispatch, st4_zero]
  have hsum : (∑ j ∈ Finset.range 2,
      logits_after_temperature_softmax st4_zero 2 2 St4Buf.logits j) = 0 := by
    simp [h2]
  refine ⟨hsum, ?_⟩
  rw [hsum]
  simp only [zero_sub, abs_neg, abs_one]
  norm_num

/-! ### The on-device argmax (C5) -/

/-- Claim C5 fails on the code: the argmax host function dispatches
shader_rmsnorm_squares_and_sum in place of shader_argmax (which does not even
compile: missing semicolons, int casts of floats), so no index information is
reduced.  On probabilities [3, 4] with n = 2 the reduction loop body never
runs, mulBuffer_4 is never written, and the host maps mulBuffer_4[0] (initially
0) and returns 0, whatever stale value the insize uniform kept; host argmax
returns 1. -/
theorem argmax_gpu_disagrees (stale : ℕ) :
    argmax_gpu_result stale argmax_st0 2 = 0 ∧
    host_argmax [3, 4] = 1 ∧ (0 : ℤ) ≠ 1 := by
  refine ⟨rfl, by decide, by decide⟩

/-- Witness for C5 with the stale insize instantiated (any value gives the
same run; 288 is the dim of the reference checkpoint). -/
theorem argmax_gpu_disagrees_witness :
    argmax_gpu_result 288 argmax_st0 2 = 0 ∧
    host_argmax [3, 4] = 1 ∧ (0 : ℤ) ≠ 1 :=
  argmax_gpu_disagrees 288

/-! ### Nucleus sampling (C6) -/

/-- Claim C6 fails on the code: with probabilities [1/2, 3/10, 1/5],
topp = 3/5 and draw r = 0, the truncated prefix is the first two sorted
entries (last_idx = 1, cum = 4/5); the inverse-CDF loop picks index 0 (the
running CDF 1/2 immediately exceeds the draw 0, so this is not the
rounding-error path), but line 1712 unconditionally overwrites the result
with probindex[last_idx].index = 1. -/
theorem sample_topp_overwrites :
    sample_topp [1/2, 3/10, 1/5] (3/5) 0 = 1 ∧
    (sample_topp_parts [1/2, 3/10, 1/5] (3/5) 0).1 = 0 ∧
    (1 : ℤ) ≠ 0 := by
  refine ⟨?_, ?_, by decide⟩ <;>
    norm_num [sample_topp, sample_topp_parts, sort_desc, build_probindex,
      insert_desc, topp_cut, cdf_pick, List.enum, List.enumFrom, List.getD,
      List.get?]

/-- Witness for C10 at seed 1. -/
theorem rng_state_invariant_witness :
    (1 : ℕ) < 2 ^ 64 ∧ (1 : ℕ) ≠ 0 ∧
    (next_rng_seed 1 ≠ 0 ∧ next_rng_seed 1 < 2 ^ 64 ∧
     (∀ k, next_rng_seed^[k] 1 ≠ 0) ∧
     0 ≤ random_f32 1 ∧ random_f32 1 < 1) :=
  ⟨by norm_num, by norm_num, rng_state_invariant 1 (by norm_num) (by norm_num)⟩
